import Mathlib

/-!
Formal model of the Email_market outbound campaign delivery engine.

Each definition is a shallow embedding of the corresponding JavaScript
function in the repository (file and function named in its doc comment).
Timestamps are modelled as `Int` milliseconds since the epoch; JavaScript
`Date` values that may be `null` are `Option Int`; JavaScript strings with
`||`-style falsiness checks are modelled as `String` with `""` for the
falsy case, or `Option String` where the source distinguishes `null`.
-/

/-- JavaScript `a || b` on strings: the empty string is falsy. -/
def jsOrStr (s d : String) : String := if s = "" then d else s

/-- Does the first character list start with the second? -/
def charsStartWith : List Char → List Char → Bool
  | _, [] => true
  | [], _ :: _ => false
  | c :: t, p :: q => c = p && charsStartWith t q

/-- Does the first character list contain the second as a contiguous run? -/
def charsContain : List Char → List Char → Bool
  | l, pat =>
    charsStartWith l pat ||
      match l with
      | [] => false
      | _ :: t => charsContain t pat

/-- Substring containment test (`String.prototype.includes`). -/
def strContains (s pat : String) : Bool := charsContain s.data pat.data

/-- `String.prototype.toLowerCase` (character-wise lowering). -/
def jsToLower (s : String) : String := String.mk (s.data.map Char.toLower)

/-- `String.prototype.trim`: strip whitespace from both ends. -/
def jsTrim (s : String) : String :=
  String.mk (((s.data.dropWhile Char.isWhitespace).reverse.dropWhile Char.isWhitespace).reverse)

/-- `String.prototype.slice(0, n)`. -/
def jsTake (s : String) (n : Nat) : String := String.mk (s.data.take n)

/-- Recipient `status` field (`db.js` Recipient schema). -/
inductive RStatus where
  | PENDING
  | SENT
  | FAILED
  | OPENED
deriving DecidableEq

/-- One recipient row (`db.js` Recipient schema): `status` defaults to
`PENDING`, `sent_at`/`opened_at` default to `null`, `open_count` to `0`. -/
structure Recipient where
  status : RStatus
  sent_at : Option Int
  opened_at : Option Int
  open_count : Nat
  message_id : Option String
  error : Option String
  updated_at : Option Int
deriving DecidableEq

/-- A freshly inserted recipient (`db.js` `createCampaign`:
`status: 'PENDING'`, schema defaults `sent_at = null`, `opened_at = null`,
`open_count = 0`). -/
def initialRecipient (createdAt : Int) : Recipient :=
  { status := RStatus.PENDING
    sent_at := none
    opened_at := none
    open_count := 0
    message_id := none
    error := none
    updated_at := some createdAt }

/-- `db.js` `markRecipientSent`: sets `status: 'SENT'`,
`message_id: messageId || null`, `sent_at: ts`, `updated_at: ts`. -/
def markRecipientSent (r : Recipient) (messageId : String) (ts : Int) : Recipient :=
  { r with
    status := RStatus.SENT
    message_id := if messageId = "" then none else some messageId
    sent_at := some ts
    updated_at := some ts }

/-- `db.js` `markRecipientFailed`: sets `status: 'FAILED'`,
`error: (errorMessage || 'Unknown send error').slice(0, 500)`. -/
def markRecipientFailed (r : Recipient) (errorMessage : String) (ts : Int) : Recipient :=
  { r with
    status := RStatus.FAILED
    error := some (jsTake (jsOrStr errorMessage ("Unknown send error")) 500)
    updated_at := some ts }

/-- Options of `db.js` `markOpenByToken`; `minSecondsAfterSent` is
`Math.max(0, Number(options.minSecondsAfterSent || 0))`, hence a `Nat`. -/
structure OpenOptions where
  minSecondsAfterSent : Nat
  ignoreBeforeSent : Bool

/-- Result object of `db.js` `markOpenByToken` (the recipient-identifying
fields are carried by the `Recipient` itself in this model). -/
inductive OpenResult where
  | ignored (reason : String)
  | counted (isFirstOpen : Bool) (status : RStatus) (openCount : Nat) (openedAt : Option Int)
deriving DecidableEq

/-- The `too_soon_after_send` test of `db.js` `markOpenByToken`:
`minSecondsAfterSent > 0 && recipient.sent_at`, then
`elapsedSeconds = Math.floor((now - sentAtMs) / 1000)` and the hit is too
soon when `elapsedSeconds >= 0 && elapsedSeconds < minSecondsAfterSent`.
(`Number.isFinite(sentAtMs)` always holds for a stored valid `Date`.) -/
def tooSoonAfterSend (r : Recipient) (opts : OpenOptions) (now : Int) : Bool :=
  decide (0 < opts.minSecondsAfterSent) &&
    match r.sent_at with
    | none => false
    | some sentAtMs =>
      let elapsedSeconds := (now - sentAtMs).fdiv 1000
      decide (0 ≤ elapsedSeconds) && decide (elapsedSeconds < (opts.minSecondsAfterSent : Int))

/-- `db.js` `markOpenByToken`, after the tracking token has been resolved
to its recipient row: the `recipient_not_sent_yet` guard, the
`too_soon_after_send` guard, then the mutation
(`open_count += 1`, `opened_at = opened_at || now`, and
`status = 'OPENED'` unless the status is `'FAILED'`). -/
def markOpenByToken (r : Recipient) (opts : OpenOptions) (now : Int) : OpenResult × Recipient :=
  if opts.ignoreBeforeSent && r.sent_at.isNone then
    (OpenResult.ignored ("recipient_not_sent_yet"), r)
  else if tooSoonAfterSend r opts now then
    (OpenResult.ignored ("too_soon_after_send"), r)
  else
    let isFirstOpen := r.open_count == 0
    let newStatus := if r.status = RStatus.FAILED then r.status else RStatus.OPENED
    let r' : Recipient :=
      { r with
        open_count := r.open_count + 1
        opened_at := some (r.opened_at.getD now)
        updated_at := some now
        status := newStatus }
    (OpenResult.counted isFirstOpen r'.status r'.open_count r'.opened_at, r')

/-- Options passed by `api.js` `processOpenTracking` into the open call. -/
structure PixelOptions where
  skipReason : String
  minSecondsAfterSent : Nat

/-- `api.js` `processOpenTracking`, after the token has been resolved to a
recipient: a non-empty `skipReason` short-circuits (no open recorded),
otherwise `markOpenByToken` is invoked with `ignoreBeforeSent: true`. -/
def processOpenTracking (r : Recipient) (opts : PixelOptions) (now : Int) :
    Option OpenResult × Recipient :=
  if jsTrim opts.skipReason = "" then
    let res := markOpenByToken r
      { minSecondsAfterSent := opts.minSecondsAfterSent, ignoreBeforeSent := true } now
    (some res.1, res.2)
  else
    (none, r)

/-- `api.js` `handlePixelHit`: `skipReason` is the automated-hit reason
unless `force_track` is set, and `minSecondsAfterSent` is the configured
minimum unless `force_track` is set (then `0`). -/
def handlePixelHitOptions (forceTrack : Bool) (automatedReason : Option String)
    (configuredMin : Nat) : PixelOptions :=
  { skipReason := if forceTrack then "" else automatedReason.getD ""
    minSecondsAfterSent := if forceTrack then 0 else configuredMin }

/-- `api.js` `getTrackingMinSecondsAfterSend`: the parsed value of
`OPEN_TRACK_MIN_SECONDS_AFTER_SEND || 5` as a JS number, where `none`
stands for a non-finite parse (`NaN`); negative or non-finite values fall
back to `5`, otherwise `Math.min(Math.round(parsed), 300)`. -/
def getTrackingMinSecondsAfterSend (parsed : Option ℚ) : Nat :=
  match parsed with
  | none => 5
  | some q => if q < 0 then 5 else min (round q).toNat 300

/-- Whether a pixel-processing outcome recorded a counted open. -/
def isCountedResult : Option OpenResult → Bool
  | some (OpenResult.counted _ _ _ _) => true
  | _ => false

/-- `campaignRunner.js` account types (`campaign.account_type`). -/
inductive AccountType where
  | google
  | microsoft
  | smtp
deriving DecidableEq

/-- Outcome of one provider "send one message" call
(`sendGmailEmail` / `sendMicrosoftEmail` / `sendSmtpEmail`): success
carries a possibly-`null` message id and the possibly-rotated token set,
failure carries the thrown error message. -/
inductive ProviderResult (T : Type) where
  | ok (messageId : Option String) (tokens : T)
  | err (message : String)

/-- Observable store/provider actions of `campaignRunner.js`
`sendCampaign`, in program order. -/
inductive CampaignEvent (T : Type) where
  | setStatus (status : String)
  | sendAttempt (index : Nat) (tokensUsed : T)
  | markSent (index : Nat) (messageId : Option String)
  | markFailed (index : Nat) (message : String)
  | persistTokens (accountType : AccountType) (tokens : T)
  | finalize

/-- `true` exactly on `persistTokens` events. -/
def isPersistEvent {T : Type} : CampaignEvent T → Bool
  | CampaignEvent.persistTokens _ _ => true
  | _ => false

/-- The per-recipient loop of `campaignRunner.js` `sendCampaign`: each
pending recipient is attempted with the current `latestTokens`; on success
`latestTokens` is replaced by the returned token set (for Google and
Microsoft; the SMTP branch carries no tokens) and the recipient is marked
sent; on error the recipient is marked failed with
`error?.message || 'Send failed'` and processing continues. -/
def runSendLoop {T : Type} (accountType : AccountType)
    (send : Nat → T → ProviderResult T) :
    List String → Nat → T → List (CampaignEvent T) × T
  | [], _, tokens => ([], tokens)
  | _ :: rest, i, tokens =>
    match send i tokens with
    | ProviderResult.ok mid newTokens =>
      let tokens' := if accountType = AccountType.smtp then tokens else newTokens
      let tail := runSendLoop accountType send rest (i + 1) tokens'
      (CampaignEvent.sendAttempt i tokens :: CampaignEvent.markSent i mid :: tail.1, tail.2)
    | ProviderResult.err m =>
      let tail := runSendLoop accountType send rest (i + 1) tokens
      (CampaignEvent.sendAttempt i tokens :: CampaignEvent.markFailed i (jsOrStr m ("Send failed")) :: tail.1,
        tail.2)

/-- Provider word used in the disconnected-account failure message of
`sendCampaign`. -/
def accountTypeLabel : AccountType → String
  | AccountType.smtp => "SMTP"
  | AccountType.microsoft => "Microsoft"
  | AccountType.google => "Google"

/-- `campaignRunner.js` `sendCampaign` as its trace of store/provider
actions: set the campaign `SENDING`; if the account is gone, fail every
pending recipient and finalize; otherwise run the send loop starting from
the account's stored token set, persist the final token set once (Google
and Microsoft only), and finalize. -/
def sendCampaign {T : Type} (accountType : AccountType) (account : Option T)
    (accountEmail : String) (pending : List String)
    (send : Nat → T → ProviderResult T) : List (CampaignEvent T) :=
  CampaignEvent.setStatus ("SENDING") ::
    match account with
    | none =>
      (pending.enum.map fun p =>
        CampaignEvent.markFailed p.1
          (accountTypeLabel accountType ++ (" account ") ++ accountEmail ++
            (" is no longer connected."))) ++ [CampaignEvent.finalize]
    | some tokens0 =>
      let loop := runSendLoop accountType send pending 0 tokens0
      loop.1 ++
        (if accountType = AccountType.google ∨ accountType = AccountType.microsoft then
          [CampaignEvent.persistTokens accountType loop.2]
        else []) ++ [CampaignEvent.finalize]

/-- The "freshest token set" after the first `n` sends: fold of the send
oracle along the successful results (errors leave the tokens unchanged). -/
def latestTokensAfter {T : Type} (send : Nat → T → ProviderResult T) (tokens0 : T) : Nat → T
  | 0 => tokens0
  | n + 1 =>
    let prev := latestTokensAfter send tokens0 n
    match send n prev with
    | ProviderResult.ok _ t => t
    | ProviderResult.err _ => prev

/-- `db.js` `finalizeCampaignStatus`, status choice from the aggregated
counts: `SENDING` while anything is pending, else `PARTIAL` on mixed
sent/failed, else `FAILED` when nothing was sent and something failed,
else `COMPLETED`. -/
def finalizeStatusFromCounts (sentCount failedCount pendingCount : Nat) : String :=
  if 0 < pendingCount then "SENDING"
  else if 0 < sentCount ∧ 0 < failedCount then "PARTIAL"
  else if sentCount = 0 ∧ 0 < failedCount then "FAILED"
  else "COMPLETED"

/-- The aggregation of `db.js` `finalizeCampaignStatus`: a recipient in
status `SENT` or `OPENED` counts as sent. -/
def sentCountOf (statuses : List RStatus) : Nat :=
  statuses.countP fun s => s = RStatus.SENT || s = RStatus.OPENED

/-- Failed-recipient count of the `finalizeCampaignStatus` aggregation. -/
def failedCountOf (statuses : List RStatus) : Nat :=
  statuses.countP fun s => s = RStatus.FAILED

/-- Pending-recipient count of the `finalizeCampaignStatus` aggregation. -/
def pendingCountOf (statuses : List RStatus) : Nat :=
  statuses.countP fun s => s = RStatus.PENDING

/-- `db.js` `finalizeCampaignStatus` as a pure function of the campaign's
recipient statuses. -/
def finalizeCampaignStatus (statuses : List RStatus) : String :=
  finalizeStatusFromCounts (sentCountOf statuses) (failedCountOf statuses)
    (pendingCountOf statuses)

/-- Modelled from the claim's words (refinement target for C2): the
status mapping exactly as the specification states it. -/
def specFinalizeStatus (sentCount failedCount pendingCount : Nat) : String :=
  if 0 < pendingCount then "SENDING"
  else if 0 < sentCount ∧ 0 < failedCount then "PARTIAL"
  else if sentCount = 0 ∧ 0 < failedCount then "FAILED"
  else "COMPLETED"

/-- Observable actions of one `campaignRunner.js` `processDueCampaigns`
invocation. -/
inductive PollEvent where
  | readDueCampaigns
  | runCampaign (index : Nat)
deriving DecidableEq

/-- `campaignRunner.js` `processDueCampaigns`: re-entry while
`isProcessing` is set returns immediately; a disconnected database returns
before setting the guard; otherwise the guard is set, the due campaigns
are read and processed in order inside `try`, and the `finally` block
clears the guard whether or not an error interrupted the loop
(`errorAt = some k` means the poll threw while processing campaign `k`).
The returned `Bool` is the `isProcessing` flag after the invocation. -/
def processDueCampaigns (isProcessing : Bool) (dbConnected : Bool)
    (nCampaigns : Nat) (errorAt : Option Nat) : List PollEvent × Bool :=
  if isProcessing then ([], isProcessing)
  else if !dbConnected then ([], isProcessing)
  else
    let sends :=
      match errorAt with
      | none => (List.range nCampaigns).map PollEvent.runCampaign
      | some k => ((List.range nCampaigns).take k).map PollEvent.runCampaign
    (PollEvent.readDueCampaigns :: sends, false)

/-- The recipient-mutating operations as the program invokes them:
`markRecipientSent` and `markRecipientFailed` are called by the send loop
only on recipients returned by `getPendingRecipients` (hence with status
`PENDING`), and `markOpenByToken` is called by the pixel handler always
with `ignoreBeforeSent: true`. -/
inductive RecipientStep : Recipient → Recipient → Prop where
  | sendSuccess (r : Recipient) (messageId : String) (ts : Int)
      (h : r.status = RStatus.PENDING) :
      RecipientStep r (markRecipientSent r messageId ts)
  | sendFailure (r : Recipient) (msg : String) (ts : Int)
      (h : r.status = RStatus.PENDING) :
      RecipientStep r (markRecipientFailed r msg ts)
  | pixelOpen (r : Recipient) (minSeconds : Nat) (now : Int) :
      RecipientStep r (markOpenByToken r ⟨minSeconds, true⟩ now).2

/-- The status transitions the specification allows (plus staying put). -/
def statusTransitionAllowed (a b : RStatus) : Bool :=
  a = b ||
    (a = RStatus.PENDING && (b = RStatus.SENT || b = RStatus.FAILED)) ||
    (a = RStatus.SENT && b = RStatus.OPENED)

/-- Iterated pixel opens: fold `markOpenByToken` over a list of hit
times. -/
def applyOpens (opts : OpenOptions) (r : Recipient) (times : List Int) : Recipient :=
  times.foldl (fun acc t => (markOpenByToken acc opts t).2) r

/-- Whether `markOpenByToken` counts (rather than ignores) this hit. -/
def openAccepted (r : Recipient) (opts : OpenOptions) (now : Int) : Bool :=
  match (markOpenByToken r opts now).1 with
  | OpenResult.counted _ _ _ _ => true
  | OpenResult.ignored _ => false

/-- The mutation block of `markOpenByToken` on an accepted open:
`open_count += 1`, `opened_at = opened_at || now`, `updated_at = now`,
and `status = 'OPENED'` unless the status is `'FAILED'`. -/
def openMutation (r : Recipient) (now : Int) : Recipient :=
  { r with
    open_count := r.open_count + 1
    opened_at := some (r.opened_at.getD now)
    updated_at := some now
    status := if r.status = RStatus.FAILED then r.status else RStatus.OPENED }

/-- Every hit in the list is accepted (counted, not ignored) when replayed
in order. -/
def allAccepted (opts : OpenOptions) : Recipient → List Int → Bool
  | _, [] => true
  | r, t :: ts => openAccepted r opts t && allAccepted opts (markOpenByToken r opts t).2 ts

/-- Microsoft token set (`microsoft.js`): the JS falsiness checks
`!tokens.access_token`, `!tokens.refresh_token` and
`Number(tokens.expires_at || 0)` are modelled with `""` for a missing
string field and `0` for a missing `expires_at`. -/
structure MsTokens where
  access_token : String
  refresh_token : String
  expires_at : Int
deriving DecidableEq

/-- `microsoft.js` `willExpireSoon` (with the 60-second leeway its only
caller uses): an absent `expires_at` never expires, otherwise the set is
expiring when `Date.now() + 60 * 1000 >= expiresAt`. -/
def willExpireSoon (tokens : MsTokens) (now : Int) : Bool :=
  if tokens.expires_at = 0 then false
  else decide (now + 60 * 1000 ≥ tokens.expires_at)

/-- `microsoft.js` `refreshMicrosoftTokens`, with the network exchange
abstracted by the normalized token payload `freshResult` it would
produce: a missing (blank) refresh token throws, and the result keeps the
old refresh token when the provider did not rotate it. -/
def refreshMicrosoftTokens (tokens : MsTokens) (freshResult : MsTokens) :
    Except String MsTokens :=
  if jsTrim tokens.refresh_token = "" then
    Except.error ("Microsoft account is missing refresh token. Reconnect the account.")
  else if freshResult.refresh_token = "" then
    Except.ok { freshResult with refresh_token := jsTrim tokens.refresh_token }
  else
    Except.ok freshResult

/-- The authentication-shaped-error test in the `catch` of
`sendMicrosoftEmail` (`error.message.toLowerCase()` checked with
`includes`). -/
def isAuthShapedError (msg : String) : Bool :=
  let raw := jsToLower msg
  strContains raw ("invalidauthenticationtoken") ||
    strContains raw ("token") ||
    strContains raw ("unauthorized") ||
    strContains raw ("access denied")

/-- Refresh and send-attempt events of one `sendMicrosoftEmail` call. -/
inductive MsEvent where
  | refresh
  | sendAttempt
deriving DecidableEq

/-- The `try`/`catch` body of `microsoft.js` `sendMicrosoftEmail`:
attempt the Graph send (outcome `send 0`, `none` meaning success); on a
failure that is authentication-shaped while a refresh token is present,
refresh once (normalized payload `refresh2`) and retry exactly once
(outcome `send 1`), propagating any further failure; other failures
propagate immediately. -/
def msTrySend (active : MsTokens) (refresh2 : MsTokens)
    (send : Nat → Option String) : Except String MsTokens × List MsEvent :=
  match send 0 with
  | none => (Except.ok active, [MsEvent.sendAttempt])
  | some msg =>
    if !isAuthShapedError msg || active.refresh_token = "" then
      (Except.error msg, [MsEvent.sendAttempt])
    else
      match refreshMicrosoftTokens active refresh2 with
      | Except.error e => (Except.error e, [MsEvent.sendAttempt, MsEvent.refresh])
      | Except.ok a2 =>
        match send 1 with
        | none => (Except.ok a2, [MsEvent.sendAttempt, MsEvent.refresh, MsEvent.sendAttempt])
        | some m2 => (Except.error m2, [MsEvent.sendAttempt, MsEvent.refresh, MsEvent.sendAttempt])

/-- `microsoft.js` `sendMicrosoftEmail`: refresh up front when the access
token is missing or about to expire (normalized payload `refresh1`), then
run the send/retry body; the returned token set is whatever
`activeTokens` ends as. -/
def sendMicrosoftEmail (now : Int) (tokens : MsTokens) (refresh1 refresh2 : MsTokens)
    (send : Nat → Option String) : Except String MsTokens × List MsEvent :=
  if tokens.access_token = "" || willExpireSoon tokens now then
    match refreshMicrosoftTokens tokens refresh1 with
    | Except.error e => (Except.error e, [MsEvent.refresh])
    | Except.ok a1 =>
      let body := msTrySend a1 refresh2 send
      (body.1, MsEvent.refresh :: body.2)
  else
    msTrySend tokens refresh2 send

/-- `smtp.js` `dotStuff`, first pass: the global replace of `/\r?\n/`
by `\r\n`, scanning left to right (a bare LF gains a CR, a CRLF is kept,
a bare CR is copied unchanged). -/
def normalizeNewlines : List Char → List Char
  | [] => []
  | '\r' :: '\n' :: rest => '\r' :: '\n' :: normalizeNewlines rest
  | '\n' :: rest => '\r' :: '\n' :: normalizeNewlines rest
  | c :: rest => c :: normalizeNewlines rest

/-- Characters after which a JavaScript multiline `^` matches. -/
def isLineStartChar (c : Char) : Bool :=
  c = '\n' || c = '\r' || c = '\u2028' || c = '\u2029'

/-- `smtp.js` `dotStuff`, second pass: the global multiline replace of
`/^\./` by `..` (a dot at the start of the string or right after a line
terminator gains a second dot). -/
def stuffDots : Bool → List Char → List Char
  | _, [] => []
  | atLineStart, c :: rest =>
    if atLineStart && c = '.' then '.' :: '.' :: stuffDots false rest
    else c :: stuffDots (isLineStartChar c) rest

/-- `smtp.js` `dotStuff`. -/
def dotStuff (s : String) : String :=
  String.mk (stuffDots true (normalizeNewlines s.data))

/-- The DATA payload written by `sendSmtpEmailByProtocol`:
the dot-stuffed message followed by the lone-dot terminator,
"`dotStuff(rawMessage)` + `\r\n.\r\n`". -/
def smtpDataPayload (raw : String) : String :=
  dotStuff raw ++ "\r\n.\r\n"

/-- Prefix a character onto the first line of a split. -/
def consHead (c : Char) : List (List Char) → List (List Char)
  | [] => [[c]]
  | l :: ls => (c :: l) :: ls

/-- Split a character stream on CRLF line breaks. -/
def splitCRLF : List Char → List (List Char)
  | [] => [[]]
  | '\r' :: '\n' :: rest => [] :: splitCRLF rest
  | c :: rest => consHead c (splitCRLF rest)

/-- One transmitted line, dot-stuffed: only a leading dot is doubled
(there is no line break inside a line, so no other `^` position). -/
def dotStuffLine : List Char → List Char
  | '.' :: t => '.' :: '.' :: t
  | l => l

/-- The standards-compliant receiver's un-stuffing of one line: drop one
leading dot from every line starting with two dots. -/
def unstuffLine : List Char → List Char
  | '.' :: '.' :: t => '.' :: t
  | l => l

/-- A line of a message body: contains no line-terminator character. -/
def noNewline (l : List Char) : Bool :=
  l.all fun c => !isLineStartChar c

/-- Join lines with CRLF. -/
def joinCRLF : List (List Char) → List Char
  | [] => []
  | [l] => l
  | l :: rest => l ++ '\r' :: '\n' :: joinCRLF rest

/-- What a standards-compliant SMTP receiver reconstructs from a DATA
payload: the transmitted lines up to the lone-dot terminator, each
un-stuffed, re-joined with CRLF. -/
def smtpDecode (payload : String) : String :=
  String.mk (joinCRLF (((splitCRLF payload.data).takeWhile fun l => l ≠ ['.']).map unstuffLine))

/-- One entry of the Microsoft PKCE state store (`microsoft.js`
`pkceStateStore`). -/
structure PkceEntry where
  codeVerifier : String
  expiresAt : Int
deriving DecidableEq

/-- The PKCE state store: a key-value map, association-list backed. -/
abbrev PkceStore : Type := List (String × PkceEntry)

/-- `Map.prototype.get`. -/
def pkceGet (store : PkceStore) (key : String) : Option PkceEntry :=
  match store.find? (fun p => p.1 = key) with
  | some p => some p.2
  | none => none

/-- `Map.prototype.delete`. -/
def pkceDelete (store : PkceStore) (key : String) : PkceStore :=
  store.filter fun p => p.1 ≠ key

/-- `Map.prototype.set` (key uniqueness is what matters; position is
irrelevant to lookups and deletes). -/
def pkceSet (store : PkceStore) (key : String) (entry : PkceEntry) : PkceStore :=
  pkceDelete store key ++ [(key, entry)]

/-- `microsoft.js` `pruneExpiredPkceStates`: drop every entry whose
`expiresAt` is not in the future. -/
def pruneExpiredPkceStates (now : Int) (store : PkceStore) : PkceStore :=
  store.filter fun p => decide (now < p.2.expiresAt)

/-- `microsoft.js` `PKCE_STATE_TTL_MS`. -/
def PKCE_STATE_TTL_MS : Int := 10 * 60 * 1000

/-- `microsoft.js` `savePkceState`: prune, then store the verifier under
the state with a 10-minute expiry. -/
def savePkceState (store : PkceStore) (now : Int) (state codeVerifier : String) : PkceStore :=
  pkceSet (pruneExpiredPkceStates now store) state
    { codeVerifier := codeVerifier, expiresAt := now + PKCE_STATE_TTL_MS }

/-- `microsoft.js` `consumePkceState`: prune; a blank state yields
nothing; otherwise the entry is read and deleted in the same call, and a
missing, expired, or blank-verifier entry yields nothing. -/
def consumePkceState (store : PkceStore) (now : Int) (state : String) :
    Option String × PkceStore :=
  let store := pruneExpiredPkceStates now store
  let key := jsTrim state
  if key = "" then (none, store)
  else
    let entry := pkceGet store key
    let store := pkceDelete store key
    match entry with
    | none => (none, store)
    | some e =>
      if e.expiresAt ≤ now then (none, store)
      else
        let v := jsTrim e.codeVerifier
        (if v = "" then none else some v, store)

/-- The session-expired error thrown by `exchangeCodeForUser`. -/
def msSessionExpiredError : String :=
  "Microsoft OAuth session expired or invalid state. Please click Connect Microsoft Account again."

/-- `microsoft.js` `exchangeCodeForUser`: consume the PKCE state; without
a verifier the distinct session-expired error is thrown before any
network call; with one, the token exchange and profile fetch proceed
(abstracted by `exchange`, applied to the recovered verifier). -/
def exchangeCodeForUser (store : PkceStore) (now : Int) (state : String)
    (exchange : String → Except String (String × MsTokens)) :
    Except String (String × MsTokens) × PkceStore :=
  match consumePkceState store now state with
  | (none, store') => (Except.error msSessionExpiredError, store')
  | (some verifier, store') => (exchange verifier, store')

/-! ## Theorems -/

/-- C4: for every recipient whose `sent_at` is null, a pixel hit processed
with `ignoreBeforeSent` enabled (as the pixel handler always enables it)
is ignored with reason `recipient_not_sent_yet` and leaves the recipient
— `open_count`, `opened_at` and `status` included — unchanged; through
`processOpenTracking` the recipient is likewise unchanged whatever the
skip reason. -/
theorem c4_open_before_sent_ignored :
    (∀ (r : Recipient) (opts : OpenOptions) (now : Int),
        opts.ignoreBeforeSent = true → r.sent_at = none →
        markOpenByToken r opts now = (OpenResult.ignored ("recipient_not_sent_yet"), r)) ∧
    (∀ (r : Recipient) (popts : PixelOptions) (now : Int),
        r.sent_at = none →
        (processOpenTracking r popts now).2 = r ∧
          ((processOpenTracking r popts now).1 = none ∨
            (processOpenTracking r popts now).1 =
              some (OpenResult.ignored ("recipient_not_sent_yet")))) := by
  have hmain : ∀ (r : Recipient) (opts : OpenOptions) (now : Int),
      opts.ignoreBeforeSent = true → r.sent_at = none →
      markOpenByToken r opts now = (OpenResult.ignored ("recipient_not_sent_yet"), r) := by
    intro r opts now hIgnore hSent
    simp [markOpenByToken, hIgnore, hSent]
  refine ⟨hmain, ?_⟩
  intro r popts now hSent
  unfold processOpenTracking
  by_cases hskip : jsTrim popts.skipReason = ""
  · simp only [hskip, if_pos rfl]
    rw [hmain r _ now rfl hSent]
    exact ⟨rfl, Or.inr rfl⟩
  · simp [hskip]

/-- Witness for C4 at a concrete never-sent recipient. -/
theorem c4_open_before_sent_ignored_witness :
    markOpenByToken (initialRecipient 0) ⟨5, true⟩ 99 =
      (OpenResult.ignored ("recipient_not_sent_yet"), initialRecipient 0) :=
  c4_open_before_sent_ignored.1 (initialRecipient 0) ⟨5, true⟩ 99 rfl rfl

/-- C6: a `processDueCampaigns` invocation that finds the `isProcessing`
guard set returns immediately — no due-campaign read, no campaign run,
guard left to its owner — and any invocation that actually starts (guard
clear) ends with the guard cleared, for every campaign count and every
error point, the database-unavailable early return included. -/
theorem c6_single_poll_in_flight :
    ∀ (dbConnected : Bool) (nCampaigns : Nat) (errorAt : Option Nat),
      processDueCampaigns true dbConnected nCampaigns errorAt = ([], true) ∧
      (processDueCampaigns false dbConnected nCampaigns errorAt).2 = false := by
  intro db n e
  constructor
  · simp [processDueCampaigns]
  · unfold processDueCampaigns
    cases db <;> simp

/-- C2: `sendCampaign` emits `setStatus SENDING` before any other action,
and `finalizeCampaignStatus` maps recipient counts exactly as the
specification states — `(3,0,0) ↦ COMPLETED`, `(2,1,0) ↦ PARTIAL`,
`(0,2,0) ↦ FAILED`, `(1,0,1) ↦ SENDING` — with a recipient in status
`OPENED` counted as sent (an `OPENED` plus a `FAILED` recipient give
`PARTIAL`, not `FAILED`). -/
theorem c2_sending_first_and_finalization :
    (∀ (T : Type) (accountType : AccountType) (account : Option T) (email : String)
        (pending : List String) (send : Nat → T → ProviderResult T),
        (sendCampaign accountType account email pending send).head? =
          some (CampaignEvent.setStatus ("SENDING"))) ∧
    (∀ sentCount failedCount pendingCount : Nat,
        finalizeStatusFromCounts sentCount failedCount pendingCount =
          specFinalizeStatus sentCount failedCount pendingCount) ∧
    finalizeStatusFromCounts 3 0 0 = "COMPLETED" ∧
    finalizeStatusFromCounts 2 1 0 = "PARTIAL" ∧
    finalizeStatusFromCounts 0 2 0 = "FAILED" ∧
    finalizeStatusFromCounts 1 0 1 = "SENDING" ∧
    finalizeCampaignStatus [RStatus.OPENED, RStatus.FAILED] = "PARTIAL" ∧
    finalizeCampaignStatus [RStatus.SENT, RStatus.OPENED, RStatus.SENT] = "COMPLETED" := by
  refine ⟨?_, fun _ _ _ => rfl, by decide, by decide, by decide, by decide, by decide, by decide⟩
  intro T accountType account email pending send
  simp [sendCampaign]

/-- A key missing from every entry of a store is not found. -/
theorem pkceGet_eq_none_of_no_key (st : PkceStore) (key : String)
    (h : ∀ p ∈ st, p.1 ≠ key) : pkceGet st key = none := by
  unfold pkceGet
  have hfind : st.find? (fun p => p.1 = key) = none := by
    rw [List.find?_eq_none]
    intro x hx
    simp [h x hx]
  rw [hfind]

/-- `pkceDelete` leaves no entry under the deleted key. -/
theorem pkceDelete_no_key (st : PkceStore) (key : String) :
    ∀ p ∈ pkceDelete st key, p.1 ≠ key := by
  intro p hp
  have := List.mem_filter.mp hp
  simpa using this.2

/-- Pruning keeps only entries of the original store. -/
theorem prune_no_key (now : Int) (st : PkceStore) (key : String)
    (h : ∀ p ∈ st, p.1 ≠ key) : ∀ p ∈ pruneExpiredPkceStates now st, p.1 ≠ key := by
  intro p hp
  exact h p (List.mem_filter.mp hp).1

/-- For a non-blank state, `consumePkceState` always hands back the store
with the state's entry deleted, whatever it returned. -/
theorem consume_snd_eq (st : PkceStore) (t : Int) (state : String)
    (h : ¬ jsTrim state = "") :
    (consumePkceState st t state).2 =
      pkceDelete (pruneExpiredPkceStates t st) (jsTrim state) := by
  unfold consumePkceState
  cases hg : pkceGet (pruneExpiredPkceStates t st) (jsTrim state) with
  | none => simp [h, hg]
  | some e => simp [h, hg, apply_ite Prod.snd]

/-- A store holding nothing under the state's key yields no verifier. -/
theorem consume_fst_none_of_no_key (st : PkceStore) (t : Int) (state : String)
    (h : ∀ p ∈ st, p.1 ≠ jsTrim state) : (consumePkceState st t state).1 = none := by
  by_cases hk : jsTrim state = ""
  · simp [consumePkceState, hk]
  · have h2 := prune_no_key t st _ h
    have hg := pkceGet_eq_none_of_no_key _ _ h2
    simp [consumePkceState, hk, hg]

/-- Consuming a state twice never yields a verifier the second time. -/
theorem consume_consume_none (st : PkceStore) (t1 t2 : Int) (state : String) :
    (consumePkceState (consumePkceState st t1 state).2 t2 state).1 = none := by
  by_cases hk : jsTrim state = ""
  · simp [consumePkceState, hk]
  · apply consume_fst_none_of_no_key
    rw [consume_snd_eq st t1 state hk]
    exact pkceDelete_no_key _ _

/-- `exchangeCodeForUser` leaves the store exactly as the consume did. -/
theorem exchange_snd_eq (st : PkceStore) (t : Int) (state : String)
    (ex : String → Except String (String × MsTokens)) :
    (exchangeCodeForUser st t state ex).2 = (consumePkceState st t state).2 := by
  unfold exchangeCodeForUser
  rcases hc : consumePkceState st t state with ⟨r, st'⟩
  cases r <;> simp

/-- Without a recovered verifier, `exchangeCodeForUser` fails with the
session-expired error. -/
theorem exchange_error_of_consume_none (st : PkceStore) (t : Int) (state : String)
    (ex : String → Except String (String × MsTokens))
    (h : (consumePkceState st t state).1 = none) :
    (exchangeCodeForUser st t state ex).1 = Except.error msSessionExpiredError := by
  unfold exchangeCodeForUser
  rcases hc : consumePkceState st t state with ⟨r, st'⟩
  rw [hc] at h
  cases r
  · rfl
  · simp at h

/-- Lookup of a key appended behind entries that all miss it. -/
theorem find_append_key (l : PkceStore) (k : String) (e : PkceEntry)
    (h : ∀ p ∈ l, p.1 ≠ k) : pkceGet (l ++ [(k, e)]) k = some e := by
  induction l with
  | nil => simp [pkceGet]
  | cons p t ih =>
    have hp : ¬ p.1 = k := h p (List.mem_cons_self _ _)
    have ht : ∀ q ∈ t, q.1 ≠ k := fun q hq => h q (List.mem_cons_of_mem _ hq)
    have := ih ht
    simpa [pkceGet, List.find?, hp] using this

/-- A freshly saved state is consumed successfully within its TTL. -/
theorem consume_after_save (st : PkceStore) (tSave t1 : Int) (state verifier : String)
    (hts : jsTrim state = state) (hne : ¬ state = "") (hv : ¬ jsTrim verifier = "")
    (hfresh : t1 < tSave + PKCE_STATE_TTL_MS) :
    (consumePkceState (savePkceState st tSave state verifier) t1 state).1 =
      some (jsTrim verifier) := by
  have hk : ¬ jsTrim state = "" := by rw [hts]; exact hne
  have hprune : pruneExpiredPkceStates t1 (savePkceState st tSave state verifier)
      = pruneExpiredPkceStates t1 (pkceDelete (pruneExpiredPkceStates tSave st) state)
        ++ [(state, ⟨verifier, tSave + PKCE_STATE_TTL_MS⟩)] := by
    unfold savePkceState pkceSet pruneExpiredPkceStates
    rw [List.filter_append]
    congr 1
    simp [hfresh]
  have hget : pkceGet (pruneExpiredPkceStates t1 (savePkceState st tSave state verifier))
      (jsTrim state) = some ⟨verifier, tSave + PKCE_STATE_TTL_MS⟩ := by
    rw [hts, hprune]
    exact find_append_key _ _ _ (prune_no_key _ _ _ (pkceDelete_no_key _ _))
  unfold consumePkceState
  simp [hk, hget, hv, not_le.mpr hfresh]

/-- C10: PKCE states are single-use — consuming a state deletes its entry
on the first lookup, so a second consume of the same state always yields
nothing, a replayed `exchangeCodeForUser` always fails with the
session-expired error, and for a state saved by `savePkceState` the first
in-TTL consume returns the verifier while the second returns nothing. -/
theorem c10_pkce_state_single_use :
    (∀ (store : PkceStore) (t1 t2 : Int) (state : String),
        (consumePkceState (consumePkceState store t1 state).2 t2 state).1 = none) ∧
    (∀ (store : PkceStore) (t1 t2 : Int) (state : String)
        (ex1 ex2 : String → Except String (String × MsTokens)),
        (exchangeCodeForUser (exchangeCodeForUser store t1 state ex1).2 t2 state ex2).1 =
          Except.error msSessionExpiredError) ∧
    (∀ (store : PkceStore) (tSave t1 t2 : Int) (state verifier : String),
        jsTrim state = state → ¬ state = "" → ¬ jsTrim verifier = "" →
        t1 < tSave + PKCE_STATE_TTL_MS →
        (consumePkceState (savePkceState store tSave state verifier) t1 state).1 =
            some (jsTrim verifier) ∧
          (consumePkceState
              (consumePkceState (savePkceState store tSave state verifier) t1 state).2
              t2 state).1 = none) := by
  refine ⟨consume_consume_none, ?_, ?_⟩
  · intro store t1 t2 state ex1 ex2
    apply exchange_error_of_consume_none
    rw [exchange_snd_eq]
    exact consume_consume_none store t1 t2 state
  · intro store tSave t1 t2 state verifier hts hne hv hfresh
    exact ⟨consume_after_save store tSave t1 state verifier hts hne hv hfresh,
      consume_consume_none (savePkceState store tSave state verifier) t1 t2 state⟩

/-- Witness for C10: a state saved at time 0 consumed at time 1000 yields
its verifier, and replaying the same state yields nothing even though the
TTL has not elapsed. -/
theorem c10_pkce_state_single_use_witness :
    (consumePkceState (savePkceState [] 0 ("abc") ("ver")) 1000 ("abc")).1 =
        some (jsTrim ("ver")) ∧
      (consumePkceState
          (consumePkceState (savePkceState [] 0 ("abc") ("ver")) 1000 ("abc")).2
          2000 ("abc")).1 = none :=
  c10_pkce_state_single_use.2.2 [] 0 1000 2000 ("abc") ("ver") (by decide) (by decide)
    (by decide) (by decide)

/-- An accepted open performs exactly the mutation block. -/
theorem accepted_step_eq (r : Recipient) (opts : OpenOptions) (now : Int)
    (h : openAccepted r opts now = true) :
    (markOpenByToken r opts now).2 = openMutation r now := by
  by_cases h1 : (opts.ignoreBeforeSent && r.sent_at.isNone) = true
  · simp [openAccepted, markOpenByToken, h1] at h
  · by_cases h2 : tooSoonAfterSend r opts now = true
    · simp [openAccepted, markOpenByToken, h1, h2] at h
    · simp [markOpenByToken, openMutation, h1, h2]

/-- Accepted opens each increment `open_count` by exactly one. -/
theorem applyOpens_count (opts : OpenOptions) :
    ∀ (ts : List Int) (r : Recipient), allAccepted opts r ts = true →
      (applyOpens opts r ts).open_count = r.open_count + ts.length := by
  intro ts
  induction ts with
  | nil => intro r _; simp [applyOpens]
  | cons t ts ih =>
    intro r h
    unfold allAccepted at h
    have h1 := (Bool.and_eq_true _ _ |>.mp h).1
    have h2 := (Bool.and_eq_true _ _ |>.mp h).2
    have hstep := accepted_step_eq r opts t h1
    show (applyOpens opts (markOpenByToken r opts t).2 ts).open_count = _
    rw [hstep] at h2 ⊢
    rw [ih _ h2]
    simp [openMutation, List.length_cons]
    omega

/-- Once `opened_at` is set, no later accepted open changes it. -/
theorem applyOpens_openedAt (opts : OpenOptions) :
    ∀ (ts : List Int) (r : Recipient) (x : Int), allAccepted opts r ts = true →
      r.opened_at = some x → (applyOpens opts r ts).opened_at = some x := by
  intro ts
  induction ts with
  | nil => intro r x _ hx; simpa [applyOpens] using hx
  | cons t ts ih =>
    intro r x h hx
    unfold allAccepted at h
    have h1 := (Bool.and_eq_true _ _ |>.mp h).1
    have h2 := (Bool.and_eq_true _ _ |>.mp h).2
    have hstep := accepted_step_eq r opts t h1
    show (applyOpens opts (markOpenByToken r opts t).2 ts).opened_at = some x
    rw [hstep] at h2 ⊢
    exact ih _ x h2 (by simp [openMutation, hx])

/-- `FAILED` and `OPENED` statuses are stable under accepted opens. -/
theorem applyOpens_status (opts : OpenOptions) :
    ∀ (ts : List Int) (r : Recipient), allAccepted opts r ts = true →
      ((r.status = RStatus.FAILED → (applyOpens opts r ts).status = RStatus.FAILED) ∧
        (r.status = RStatus.OPENED → (applyOpens opts r ts).status = RStatus.OPENED)) := by
  intro ts
  induction ts with
  | nil =>
    intro r _
    exact ⟨fun h => by simpa [applyOpens] using h, fun h => by simpa [applyOpens] using h⟩
  | cons t ts ih =>
    intro r h
    unfold allAccepted at h
    have h1 := (Bool.and_eq_true _ _ |>.mp h).1
    have h2 := (Bool.and_eq_true _ _ |>.mp h).2
    have hstep := accepted_step_eq r opts t h1
    constructor
    · intro hf
      show (applyOpens opts (markOpenByToken r opts t).2 ts).status = _
      rw [hstep] at h2 ⊢
      exact (ih _ h2).1 (by simp [openMutation, hf])
    · intro ho
      show (applyOpens opts (markOpenByToken r opts t).2 ts).status = _
      rw [hstep] at h2 ⊢
      have hm : (openMutation r t).status = RStatus.OPENED := by
        simp [openMutation, ho]
      exact (ih _ h2).2 hm

/-- C3: for a sent recipient with no opens yet, N ≥ 1 accepted calls of
`markOpenByToken` leave `open_count = N`, set `opened_at` exactly once —
to the first accepted hit's time, never changed afterwards — and leave
`status = OPENED` from the first accepted open on, unless the recipient
was already `FAILED`, in which case the status stays `FAILED` while
`open_count` still increments. -/
theorem c3_tracking_open_idempotence :
    ∀ (opts : OpenOptions) (r : Recipient) (s t0 : Int) (ts : List Int),
      r.sent_at = some s → r.open_count = 0 → r.opened_at = none →
      allAccepted opts r (t0 :: ts) = true →
      ((applyOpens opts r (t0 :: ts)).open_count = (t0 :: ts).length ∧
        (applyOpens opts r (t0 :: ts)).opened_at = some t0 ∧
        (¬ r.status = RStatus.FAILED → (applyOpens opts r (t0 :: ts)).status = RStatus.OPENED) ∧
        (r.status = RStatus.FAILED → (applyOpens opts r (t0 :: ts)).status = RStatus.FAILED)) := by
  intro opts r s t0 ts hsent hcount hopened hall
  unfold allAccepted at hall
  have h1 := (Bool.and_eq_true _ _ |>.mp hall).1
  have h2 := (Bool.and_eq_true _ _ |>.mp hall).2
  have hstep := accepted_step_eq r opts t0 h1
  have happly : applyOpens opts r (t0 :: ts) = applyOpens opts (markOpenByToken r opts t0).2 ts := rfl
  rw [happly, hstep]
  rw [hstep] at h2
  refine ⟨?_, ?_, ?_, ?_⟩
  · rw [applyOpens_count opts ts _ h2]
    simp [openMutation, hcount, List.length_cons]
    omega
  · apply applyOpens_openedAt opts ts _ t0 h2
    simp [openMutation, hopened]
  · intro hnf
    apply (applyOpens_status opts ts _ h2).2
    simp [openMutation, hnf]
  · intro hf
    apply (applyOpens_status opts ts _ h2).1
    simp [openMutation, hf]

/-- Witness for C3: two accepted opens on a just-sent recipient give
`open_count = 2` and `opened_at` stuck at the first hit's time. -/
theorem c3_tracking_open_idempotence_witness :
    (applyOpens ⟨0, true⟩ (markRecipientSent (initialRecipient 0) ("m1") 10) [20, 30]).open_count = 2 ∧
      (applyOpens ⟨0, true⟩ (markRecipientSent (initialRecipient 0) ("m1") 10) [20, 30]).opened_at =
        some 20 := by
  have h := c3_tracking_open_idempotence ⟨0, true⟩
    (markRecipientSent (initialRecipient 0) ("m1") 10) 10 20 [30]
    (by decide) (by decide) (by decide) (by decide)
  exact ⟨h.1, h.2.1⟩

/-- A pixel hit on a never-sent recipient is ignored outright. -/
theorem markOpen_not_sent_eq (r : Recipient) (opts : OpenOptions) (now : Int)
    (hIgnore : opts.ignoreBeforeSent = true) (hSent : r.sent_at = none) :
    markOpenByToken r opts now = (OpenResult.ignored ("recipient_not_sent_yet"), r) := by
  simp [markOpenByToken, hIgnore, hSent]

/-- Each program step preserves `PENDING → sent_at = null`. -/
theorem step_preserves_inv (r r' : Recipient) (h : RecipientStep r r')
    (hinv : r.status = RStatus.PENDING → r.sent_at = none) :
    r'.status = RStatus.PENDING → r'.sent_at = none := by
  cases h with
  | sendSuccess mid ts hp => intro hc; simp [markRecipientSent] at hc
  | sendFailure msg ts hp => intro hc; simp [markRecipientFailed] at hc
  | pixelOpen minSeconds now =>
    cases hs : r.sent_at with
    | none =>
      rw [markOpen_not_sent_eq r ⟨minSeconds, true⟩ now rfl hs]
      intro hc
      exact hs ▸ rfl
    | some s =>
      by_cases h2 : tooSoonAfterSend r ⟨minSeconds, true⟩ now = true
      · have heq : (markOpenByToken r ⟨minSeconds, true⟩ now).2 = r := by
          simp [markOpenByToken, hs, h2]
        rw [heq]
        intro hc
        exact hinv hc
      · have hmut : (markOpenByToken r ⟨minSeconds, true⟩ now).2 = openMutation r now := by
          simp [markOpenByToken, hs, h2, openMutation]
        rw [hmut]
        intro hc
        by_cases hf : r.status = RStatus.FAILED
        · simp [openMutation, hf] at hc
        · simp [openMutation, hf] at hc

/-- Under the invariant, each program step takes an allowed transition. -/
theorem step_allowed (r r' : Recipient) (h : RecipientStep r r')
    (hinv : r.status = RStatus.PENDING → r.sent_at = none) :
    statusTransitionAllowed r.status r'.status = true := by
  cases h with
  | sendSuccess mid ts hp => simp [markRecipientSent, statusTransitionAllowed, hp]
  | sendFailure msg ts hp => simp [markRecipientFailed, statusTransitionAllowed, hp]
  | pixelOpen minSeconds now =>
    cases hs : r.sent_at with
    | none =>
      rw [markOpen_not_sent_eq r ⟨minSeconds, true⟩ now rfl hs]
      cases r.status <;> simp [statusTransitionAllowed]
    | some s =>
      by_cases h2 : tooSoonAfterSend r ⟨minSeconds, true⟩ now = true
      · have heq : (markOpenByToken r ⟨minSeconds, true⟩ now).2 = r := by
          simp [markOpenByToken, hs, h2]
        rw [heq]
        cases r.status <;> simp [statusTransitionAllowed]
      · have hmut : (markOpenByToken r ⟨minSeconds, true⟩ now).2 = openMutation r now := by
          simp [markOpenByToken, hs, h2, openMutation]
        rw [hmut]
        have hnp : ¬ r.status = RStatus.PENDING := fun hp => by
          rw [hinv hp] at hs
          cases hs
        by_cases hf : r.status = RStatus.FAILED
        · simp [openMutation, hf, statusTransitionAllowed]
        · cases hst : r.status with
          | PENDING => exact absurd hst hnp
          | FAILED => exact absurd hst hf
          | SENT => simp [openMutation, hst, statusTransitionAllowed]
          | OPENED => simp [openMutation, hst, statusTransitionAllowed]

/-- Every reachable recipient satisfies `PENDING → sent_at = null`. -/
theorem reachable_inv (t : Int) (r : Recipient)
    (h : Relation.ReflTransGen RecipientStep (initialRecipient t) r) :
    r.status = RStatus.PENDING → r.sent_at = none := by
  induction h with
  | refl => intro _; rfl
  | tail hab hbc ih => exact step_preserves_inv _ _ hbc ih

/-- `OPENED` admits no allowed transition but to itself. -/
theorem allowed_from_opened :
    ∀ b, statusTransitionAllowed RStatus.OPENED b = true → b = RStatus.OPENED := by
  intro b
  cases b <;> simp [statusTransitionAllowed]

/-- `FAILED` admits no allowed transition but to itself. -/
theorem allowed_from_failed :
    ∀ b, statusTransitionAllowed RStatus.FAILED b = true → b = RStatus.FAILED := by
  intro b
  cases b <;> simp [statusTransitionAllowed]

/-- C1: along every reachable sequence of the recipient-mutating
operations as the program invokes them (`markRecipientSent` and
`markRecipientFailed` only on `getPendingRecipients` results, pixel opens
always with `ignoreBeforeSent`), each step moves `status` only along
PENDING→SENT, PENDING→FAILED, SENT→OPENED, or keeps it; in particular no
step leaves `OPENED`, and no step takes `FAILED` to `SENT`. -/
theorem c1_recipient_status_transitions :
    ∀ (t : Int) (r r' : Recipient),
      Relation.ReflTransGen RecipientStep (initialRecipient t) r →
      RecipientStep r r' →
      (statusTransitionAllowed r.status r'.status = true ∧
        (r.status = RStatus.OPENED → r'.status = RStatus.OPENED) ∧
        (r.status = RStatus.FAILED → ¬ r'.status = RStatus.SENT)) := by
  intro t r r' hreach hstep
  have hinv := reachable_inv t r hreach
  have hallowed := step_allowed r r' hstep hinv
  refine ⟨hallowed, ?_, ?_⟩
  · intro ho
    rw [ho] at hallowed
    exact allowed_from_opened _ hallowed
  · intro hf
    rw [hf] at hallowed
    rw [allowed_from_failed _ hallowed]
    simp

/-- Witness for C1: the first send step out of a fresh recipient is an
allowed transition. -/
theorem c1_recipient_status_transitions_witness :
    statusTransitionAllowed (initialRecipient 0).status
        (markRecipientSent (initialRecipient 0) ("m") 5).status = true ∧
      ((initialRecipient 0).status = RStatus.OPENED →
        (markRecipientSent (initialRecipient 0) ("m") 5).status = RStatus.OPENED) ∧
      ((initialRecipient 0).status = RStatus.FAILED →
        ¬ (markRecipientSent (initialRecipient 0) ("m") 5).status = RStatus.SENT) :=
  c1_recipient_status_transitions 0 (initialRecipient 0)
    (markRecipientSent (initialRecipient 0) ("m") 5)
    Relation.ReflTransGen.refl
    (RecipientStep.sendSuccess (initialRecipient 0) ("m") 5 rfl)

/-- C5: the configured minimum delay parses with non-finite and negative
fallback 5, rounding, and a 300-second cap; a pixel hit whose elapsed
whole seconds since `sent_at` are nonnegative and below the minimum is
ignored as `too_soon_after_send` with the recipient unchanged; and
`force_track=1` zeroes the minimum and empties the skip reason, so the
open is counted whatever the bot-filter verdict and however soon the hit
arrives. -/
theorem c5_min_delay_unless_force_track :
    getTrackingMinSecondsAfterSend none = 5 ∧
    getTrackingMinSecondsAfterSend (some 5) = 5 ∧
    (∀ q : ℚ, q < 0 → getTrackingMinSecondsAfterSend (some q) = 5) ∧
    (∀ q : ℚ, 0 ≤ q → getTrackingMinSecondsAfterSend (some q) = min (round q).toNat 300) ∧
    (∀ (r : Recipient) (minS : Nat) (now s : Int),
        r.sent_at = some s → 0 < minS →
        0 ≤ (now - s).fdiv 1000 → (now - s).fdiv 1000 < (minS : Int) →
        markOpenByToken r ⟨minS, true⟩ now =
          (OpenResult.ignored ("too_soon_after_send"), r)) ∧
    (∀ (r : Recipient) (auto : Option String) (cfgMin : Nat) (now s : Int),
        r.sent_at = some s →
        isCountedResult
            (processOpenTracking r (handlePixelHitOptions true auto cfgMin) now).1 = true ∧
          (processOpenTracking r (handlePixelHitOptions true auto cfgMin) now).2.open_count =
            r.open_count + 1) := by
  refine ⟨rfl, by simp [getTrackingMinSecondsAfterSend], ?_, ?_, ?_, ?_⟩
  · intro q hq
    simp [getTrackingMinSecondsAfterSend, hq]
  · intro q hq
    simp [getTrackingMinSecondsAfterSend, not_lt.mpr hq]
  · intro r minS now s hs hmin h0 hlt
    have htoo : tooSoonAfterSend r ⟨minS, true⟩ now = true := by
      simp [tooSoonAfterSend, hs, hmin, h0, hlt]
    simp [markOpenByToken, hs, htoo]
  · intro r auto cfgMin now s hs
    have hskip : jsTrim ("") = "" := rfl
    have hopts : handlePixelHitOptions true auto cfgMin = ⟨"", 0⟩ := rfl
    have hnotsoon : tooSoonAfterSend r ⟨0, true⟩ now = false := by
      simp [tooSoonAfterSend]
    constructor
    · simp [processOpenTracking, hopts, hskip, markOpenByToken, hs, hnotsoon, isCountedResult]
    · simp [processOpenTracking, hopts, hskip, markOpenByToken, hs, hnotsoon]

/-- Witness for C5: a negative configured value falls back to 5; a hit 2
seconds after a send with a 5-second minimum is ignored and the recipient
unchanged; the same hit with `force_track` is counted despite a
bot-filter verdict. -/
theorem c5_min_delay_unless_force_track_witness :
    getTrackingMinSecondsAfterSend (some (-1)) = 5 ∧
      markOpenByToken (markRecipientSent (initialRecipient 0) ("m") 1000) ⟨5, true⟩ 3000 =
        (OpenResult.ignored ("too_soon_after_send"),
          markRecipientSent (initialRecipient 0) ("m") 1000) ∧
      isCountedResult
        (processOpenTracking (markRecipientSent (initialRecipient 0) ("m") 1000)
          (handlePixelHitOptions true (some ("head_request")) 5) 3000).1 = true :=
  ⟨c5_min_delay_unless_force_track.2.2.1 (-1) (by norm_num),
    c5_min_delay_unless_force_track.2.2.2.2.1 (markRecipientSent (initialRecipient 0) ("m") 1000)
      5 3000 1000 rfl (by decide) (by decide) (by decide),
    (c5_min_delay_unless_force_track.2.2.2.2.2 (markRecipientSent (initialRecipient 0) ("m") 1000)
      (some ("head_request")) 5 3000 1000 rfl).1⟩

/-- One `sendMicrosoftEmail` body performs one, two, or three actions —
never a loop. -/
theorem msTrySend_events_cases (active refresh2 : MsTokens) (send : Nat → Option String) :
    (msTrySend active refresh2 send).2 = [MsEvent.sendAttempt] ∨
      (msTrySend active refresh2 send).2 = [MsEvent.sendAttempt, MsEvent.refresh] ∨
      (msTrySend active refresh2 send).2 =
        [MsEvent.sendAttempt, MsEvent.refresh, MsEvent.sendAttempt] := by
  unfold msTrySend
  cases h0 : send 0 with
  | none => simp
  | some msg =>
    by_cases hc : (!isAuthShapedError msg || active.refresh_token = "") = true
    · simp [hc]
    · simp only [hc, if_neg]
      cases hr : refreshMicrosoftTokens active refresh2 with
      | error e => simp [hc]
      | ok a2 =>
        cases h1 : send 1 with
        | none => simp [hc, hr, h1]
        | some m2 => simp [hc, hr, h1]

/-- C8: a Microsoft send refreshes first whenever the access token is
missing or `expires_at` is within 60 seconds (the first event is the
refresh); with a fresh token the call is exactly the try/retry body; an
authentication-shaped first failure with a refresh token available
produces exactly send, refresh, retry — a second failure propagating as
the error, a retry success returning ok; a non-authentication failure
propagates immediately with a single send and no refresh; and no run ever
exceeds two sends or two refreshes. -/
theorem c8_ms_refresh_before_send_and_single_retry :
    (∀ (now : Int) (tokens refresh1 refresh2 : MsTokens) (send : Nat → Option String),
        (tokens.access_token = "" ∨ willExpireSoon tokens now = true) →
        (sendMicrosoftEmail now tokens refresh1 refresh2 send).2.head? = some MsEvent.refresh) ∧
    (∀ (now : Int) (tokens refresh1 refresh2 : MsTokens) (send : Nat → Option String),
        ¬ tokens.access_token = "" → willExpireSoon tokens now = false →
        sendMicrosoftEmail now tokens refresh1 refresh2 send = msTrySend tokens refresh2 send) ∧
    (∀ (active refresh2 : MsTokens) (send : Nat → Option String) (msg : String),
        send 0 = some msg → isAuthShapedError msg = true →
        ¬ active.refresh_token = "" → ¬ jsTrim active.refresh_token = "" →
        ((msTrySend active refresh2 send).2 =
            [MsEvent.sendAttempt, MsEvent.refresh, MsEvent.sendAttempt] ∧
          (∀ m2, send 1 = some m2 → (msTrySend active refresh2 send).1 = Except.error m2) ∧
          (send 1 = none → (msTrySend active refresh2 send).1.isOk = true))) ∧
    (∀ (active refresh2 : MsTokens) (send : Nat → Option String) (msg : String),
        send 0 = some msg → isAuthShapedError msg = false →
        msTrySend active refresh2 send = (Except.error msg, [MsEvent.sendAttempt])) ∧
    (∀ (now : Int) (tokens refresh1 refresh2 : MsTokens) (send : Nat → Option String),
        (sendMicrosoftEmail now tokens refresh1 refresh2 send).2.count MsEvent.sendAttempt ≤ 2 ∧
          (sendMicrosoftEmail now tokens refresh1 refresh2 send).2.count MsEvent.refresh ≤ 2) := by
  have hbody : ∀ (active refresh2 : MsTokens) (send : Nat → Option String) (msg : String),
      send 0 = some msg → isAuthShapedError msg = true →
      ¬ active.refresh_token = "" → ¬ jsTrim active.refresh_token = "" →
      ((msTrySend active refresh2 send).2 =
          [MsEvent.sendAttempt, MsEvent.refresh, MsEvent.sendAttempt] ∧
        (∀ m2, send 1 = some m2 → (msTrySend active refresh2 send).1 = Except.error m2) ∧
        (send 1 = none → (msTrySend active refresh2 send).1.isOk = true)) := by
    intro active refresh2 send msg h0 hauth hrt htrim
    have hcond : (!isAuthShapedError msg || active.refresh_token = "") = false := by
      simp [hauth, hrt]
    have hrefresh : ∀ e, refreshMicrosoftTokens active refresh2 ≠ Except.error e := by
      intro e
      unfold refreshMicrosoftTokens
      split
      · exact absurd (by assumption) htrim
      · split <;> simp
    cases hr : refreshMicrosoftTokens active refresh2 with
    | error e => exact absurd hr (hrefresh e)
    | ok a2 =>
      cases h1 : send 1 with
      | none =>
        refine ⟨?_, ?_, ?_⟩
        · simp [msTrySend, h0, hcond, hr, h1]
        · intro m2 hm2
          exact Option.noConfusion hm2
        · intro _
          simp [msTrySend, h0, hcond, hr, h1, Except.isOk, Except.toBool]
      | some m2 =>
        refine ⟨?_, ?_, ?_⟩
        · simp [msTrySend, h0, hcond, hr, h1]
        · intro m2' hm2
          have hm : m2' = m2 := (Option.some.inj hm2).symm
          subst hm
          simp [msTrySend, h0, hcond, hr, h1]
        · intro hnone
          exact Option.noConfusion hnone
  refine ⟨?_, ?_, hbody, ?_, ?_⟩
  · intro now tokens refresh1 refresh2 send hpre
    have hcond : (tokens.access_token = "" || willExpireSoon tokens now) = true := by
      rcases hpre with h | h <;> simp [h]
    cases hr : refreshMicrosoftTokens tokens refresh1 with
    | error e => simp [sendMicrosoftEmail, hcond, hr]
    | ok a1 => simp [sendMicrosoftEmail, hcond, hr]
  · intro now tokens refresh1 refresh2 send hacc hexp
    simp [sendMicrosoftEmail, hacc, hexp]
  · intro active refresh2 send msg h0 hnotauth
    simp [msTrySend, h0, hnotauth]
  · intro now tokens refresh1 refresh2 send
    have hcases := msTrySend_events_cases tokens refresh2 send
    by_cases hcond : (tokens.access_token = "" || willExpireSoon tokens now) = true
    · cases hr : refreshMicrosoftTokens tokens refresh1 with
      | error e =>
        constructor <;> simp [sendMicrosoftEmail, hcond, hr]
      | ok a1 =>
        have hcases1 := msTrySend_events_cases a1 refresh2 send
        rcases hcases1 with h | h | h <;>
          constructor <;> simp [sendMicrosoftEmail, hcond, hr, h]
    · rcases hcases with h | h | h <;>
        constructor <;> simp [sendMicrosoftEmail, hcond, h]

/-- Witness for C8: an unauthorized first send with a refresh token
available yields exactly send, refresh, retry. -/
theorem c8_ms_refresh_before_send_and_single_retry_witness :
    (msTrySend ⟨"at", "rt", 0⟩ ⟨"at2", "rt2", 0⟩
        (fun i => if i = 0 then some ("Request Unauthorized") else none)).2 =
      [MsEvent.sendAttempt, MsEvent.refresh, MsEvent.sendAttempt] :=
  (c8_ms_refresh_before_send_and_single_retry.2.2.1 ⟨"at", "rt", 0⟩ ⟨"at2", "rt2", 0⟩
    (fun i => if i = 0 then some ("Request Unauthorized") else none) ("Request Unauthorized")
    rfl (by decide) (by decide) (by decide)).1

/-- Definitional unfolding of the send loop on a non-empty recipient
list. -/
theorem runSendLoop_cons_eq {T : Type} (accountType : AccountType)
    (send : Nat → T → ProviderResult T) (hd : String) (tl : List String) (i : Nat)
    (tokens : T) :
    runSendLoop accountType send (hd :: tl) i tokens =
      (match send i tokens with
        | ProviderResult.ok mid newTokens =>
          let tokens' := if accountType = AccountType.smtp then tokens else newTokens
          let tail := runSendLoop accountType send tl (i + 1) tokens'
          (CampaignEvent.sendAttempt i tokens :: CampaignEvent.markSent i mid :: tail.1, tail.2)
        | ProviderResult.err m =>
          let tail := runSendLoop accountType send tl (i + 1) tokens
          (CampaignEvent.sendAttempt i tokens ::
              CampaignEvent.markFailed i (jsOrStr m ("Send failed")) :: tail.1,
            tail.2)) := rfl

/-- Send-loop step on a successful send (token-carrying provider). -/
theorem runSendLoop_cons_ok {T : Type} (accountType : AccountType)
    (send : Nat → T → ProviderResult T) (hd : String) (tl : List String) (i : Nat)
    (tokens : T) (mid : Option String) (newTokens : T)
    (hs : send i tokens = ProviderResult.ok mid newTokens)
    (hne : ¬ accountType = AccountType.smtp) :
    runSendLoop accountType send (hd :: tl) i tokens =
      (CampaignEvent.sendAttempt i tokens :: CampaignEvent.markSent i mid ::
          (runSendLoop accountType send tl (i + 1) newTokens).1,
        (runSendLoop accountType send tl (i + 1) newTokens).2) := by
  rw [runSendLoop_cons_eq, hs]
  simp [hne]

/-- Send-loop step on a failed send: tokens are left unchanged. -/
theorem runSendLoop_cons_err {T : Type} (accountType : AccountType)
    (send : Nat → T → ProviderResult T) (hd : String) (tl : List String) (i : Nat)
    (tokens : T) (m : String)
    (hs : send i tokens = ProviderResult.err m) :
    runSendLoop accountType send (hd :: tl) i tokens =
      (CampaignEvent.sendAttempt i tokens ::
          CampaignEvent.markFailed i (jsOrStr m ("Send failed")) ::
          (runSendLoop accountType send tl (i + 1) tokens).1,
        (runSendLoop accountType send tl (i + 1) tokens).2) := by
  rw [runSendLoop_cons_eq, hs]

/-- `latestTokensAfter` advances to the returned tokens on success. -/
theorem latestTokensAfter_succ_ok {T : Type} (send : Nat → T → ProviderResult T) (t0 : T)
    (i : Nat) (mid : Option String) (newTokens : T)
    (hs : send i (latestTokensAfter send t0 i) = ProviderResult.ok mid newTokens) :
    latestTokensAfter send t0 (i + 1) = newTokens := by
  show (match send i (latestTokensAfter send t0 i) with
    | ProviderResult.ok _ t => t
    | ProviderResult.err _ => latestTokensAfter send t0 i) = newTokens
  rw [hs]

/-- `latestTokensAfter` is unchanged by a failed send. -/
theorem latestTokensAfter_succ_err {T : Type} (send : Nat → T → ProviderResult T) (t0 : T)
    (i : Nat) (m : String)
    (hs : send i (latestTokensAfter send t0 i) = ProviderResult.err m) :
    latestTokensAfter send t0 (i + 1) = latestTokensAfter send t0 i := by
  show (match send i (latestTokensAfter send t0 i) with
    | ProviderResult.ok _ t => t
    | ProviderResult.err _ => latestTokensAfter send t0 i) = _
  rw [hs]

/-- The send loop threads the freshest token set: entered at index `i`
with the tokens current after `i` sends, it finishes with the tokens
current after all sends, and every attempt at index `j` uses the tokens
current after the first `j` sends. -/
theorem runSendLoop_threading {T : Type} (accountType : AccountType)
    (hne : ¬ accountType = AccountType.smtp) (send : Nat → T → ProviderResult T) (t0 : T) :
    ∀ (l : List String) (i : Nat),
      ((runSendLoop accountType send l i (latestTokensAfter send t0 i)).2 =
          latestTokensAfter send t0 (i + l.length)) ∧
        (∀ j tok,
          CampaignEvent.sendAttempt j tok ∈
              (runSendLoop accountType send l i (latestTokensAfter send t0 i)).1 →
            tok = latestTokensAfter send t0 j) := by
  intro l
  induction l with
  | nil =>
    intro i
    constructor
    · simp [runSendLoop]
    · intro j tok hmem
      simp [runSendLoop] at hmem
  | cons hd tl ih =>
    intro i
    have harith : i + (hd :: tl).length = (i + 1) + tl.length := by
      simp [List.length_cons]
      omega
    have ihh := ih (i + 1)
    cases hs : send i (latestTokensAfter send t0 i) with
    | ok mid newTokens =>
      have hstep := latestTokensAfter_succ_ok send t0 i mid newTokens hs
      have hrw := runSendLoop_cons_ok accountType send hd tl i
        (latestTokensAfter send t0 i) mid newTokens hs hne
      rw [← hstep] at hrw
      constructor
      · rw [hrw, harith]
        exact ihh.1
      · intro j tok hmem
        rw [hrw] at hmem
        simp only [List.mem_cons] at hmem
        rcases hmem with heq | heq | hmem
        · cases heq
          rfl
        · cases heq
        · exact ihh.2 j tok hmem
    | err m =>
      have hstep := latestTokensAfter_succ_err send t0 i m hs
      have hrw := runSendLoop_cons_err accountType send hd tl i
        (latestTokensAfter send t0 i) m hs
      rw [hstep] at ihh
      constructor
      · rw [hrw, harith]
        exact ihh.1
      · intro j tok hmem
        rw [hrw] at hmem
        simp only [List.mem_cons] at hmem
        rcases hmem with heq | heq | hmem
        · cases heq
          rfl
        · cases heq
        · exact ihh.2 j tok hmem

/-- The send loop itself never persists tokens. -/
theorem runSendLoop_no_persist {T : Type} (accountType : AccountType)
    (send : Nat → T → ProviderResult T) :
    ∀ (l : List String) (i : Nat) (tokens : T),
      ∀ e ∈ (runSendLoop accountType send l i tokens).1, isPersistEvent e = false := by
  intro l
  induction l with
  | nil => intro i tokens e he; simp [runSendLoop] at he
  | cons hd tl ih =>
    intro i tokens e he
    rw [runSendLoop_cons_eq] at he
    cases hs : send i tokens with
    | ok mid newTokens =>
      rw [hs] at he
      simp only [List.mem_cons] at he
      rcases he with rfl | rfl | he
      · rfl
      · rfl
      · exact ih _ _ e he
    | err m =>
      rw [hs] at he
      simp only [List.mem_cons] at he
      rcases he with rfl | rfl | he
      · rfl
      · rfl
      · exact ih _ _ e he

/-- C7: for a Google or Microsoft campaign with a resolved account, the
trace of `sendCampaign` is the send loop followed by exactly one
`persistTokens` — placed after every send, carrying the fold of all
successful sends' rotated tokens — and every individual send attempt uses
the freshest token set at that point (initial tokens updated by each
preceding successful send). -/
theorem c7_token_rotation_threading :
    ∀ {T : Type} (accountType : AccountType) (tokens0 : T) (email : String)
      (pending : List String) (send : Nat → T → ProviderResult T),
      (accountType = AccountType.google ∨ accountType = AccountType.microsoft) →
      (sendCampaign accountType (some tokens0) email pending send =
          CampaignEvent.setStatus ("SENDING") ::
            (runSendLoop accountType send pending 0 tokens0).1 ++
            [CampaignEvent.persistTokens accountType
                (latestTokensAfter send tokens0 pending.length),
              CampaignEvent.finalize] ∧
        (sendCampaign accountType (some tokens0) email pending send).countP
            isPersistEvent = 1 ∧
        (∀ (j : Nat) (tok : T),
          CampaignEvent.sendAttempt j tok ∈
              sendCampaign accountType (some tokens0) email pending send →
            tok = latestTokensAfter send tokens0 j)) := by
  intro T accountType tokens0 email pending send hgm
  have hne : ¬ accountType = AccountType.smtp := by
    rcases hgm with h | h <;> simp [h]
  have hthread := runSendLoop_threading accountType hne send tokens0 pending 0
  have hlatest0 : latestTokensAfter send tokens0 0 = tokens0 := rfl
  rw [hlatest0] at hthread
  have hsnd : (runSendLoop accountType send pending 0 tokens0).2 =
      latestTokensAfter send tokens0 pending.length := by
    have := hthread.1
    simpa using this
  have hsc : sendCampaign accountType (some tokens0) email pending send =
      CampaignEvent.setStatus ("SENDING") ::
        (runSendLoop accountType send pending 0 tokens0).1 ++
        [CampaignEvent.persistTokens accountType
            (latestTokensAfter send tokens0 pending.length),
          CampaignEvent.finalize] := by
    rw [← hsnd]
    simp [sendCampaign, hgm]
  refine ⟨hsc, ?_, ?_⟩
  · rw [hsc]
    have h0 : (runSendLoop accountType send pending 0 tokens0).1.countP
        (fun e => isPersistEvent e) = 0 := by
      rw [List.countP_eq_zero]
      intro e he
      simp [runSendLoop_no_persist accountType send pending 0 tokens0 e he]
    simp [List.countP_cons, List.countP_append, isPersistEvent, h0]
  · intro j tok hmem
    rw [hsc] at hmem
    simp only [List.mem_cons, List.mem_append, List.mem_singleton] at hmem
    rcases hmem with (heq | hmem) | heq | heq | hin
    · cases heq
    · exact hthread.2 j tok hmem
    · cases heq
    · cases heq
    · simp at hin

/-- Witness for C7: a two-recipient Google campaign with rotating tokens
persists tokens exactly once. -/
theorem c7_token_rotation_threading_witness :
    (sendCampaign AccountType.google (some (0 : Nat)) ("a@x.com") ["r1", "r2"]
        (fun _ t => ProviderResult.ok none (t + 1))).countP isPersistEvent = 1 :=
  (c7_token_rotation_threading AccountType.google 0 ("a@x.com") ["r1", "r2"]
    (fun _ t => ProviderResult.ok none (t + 1)) (Or.inl rfl)).2.1

/-- A CRLF pair passes through the stuffer and re-arms line start. -/
theorem stuffDots_crlf (rest : List Char) (b : Bool) :
    stuffDots b ('\r' :: '\n' :: rest) = '\r' :: '\n' :: stuffDots true rest := by
  simp [stuffDots, isLineStartChar]

/-- Mid-line characters pass through the stuffer unchanged. -/
theorem stuffDots_inner (t : List Char) (rest : List Char) (h : noNewline t = true) :
    stuffDots false (t ++ rest) = t ++ stuffDots false rest := by
  induction t with
  | nil => rfl
  | cons c u ih =>
    simp only [noNewline, List.all_cons, Bool.and_eq_true] at h
    have hc : isLineStartChar c = false := by
      simpa using h.1
    have hu : noNewline u = true := h.2
    show stuffDots false (c :: (u ++ rest)) = _
    simp [stuffDots, hc, ih hu]

/-- Stuffing a final newline-free line doubles only a leading dot. -/
theorem stuffDots_terminal (l : List Char) (h : noNewline l = true) :
    stuffDots true l = dotStuffLine l := by
  cases l with
  | nil => rfl
  | cons c t =>
    simp only [noNewline, List.all_cons, Bool.and_eq_true] at h
    have hc : isLineStartChar c = false := by simpa using h.1
    have ht : noNewline t = true := h.2
    by_cases hdot : c = '.'
    · subst hdot
      show stuffDots true ('.' :: t) = _
      have h1 : stuffDots true ('.' :: t) = '.' :: '.' :: stuffDots false t := by
        simp [stuffDots]
      rw [h1, dotStuffLine]
      have := stuffDots_inner t [] ht
      simpa [stuffDots] using this
    · show stuffDots true (c :: t) = dotStuffLine (c :: t)
      have h1 : stuffDots true (c :: t) = c :: stuffDots (isLineStartChar c) t := by
        simp [stuffDots, hdot]
      rw [h1, hc]
      have h2 : dotStuffLine (c :: t) = c :: t := by
        cases t <;> simp [dotStuffLine, hdot]
      rw [h2]
      have := stuffDots_inner t [] ht
      simpa [stuffDots] using this

/-- Stuffing a newline-free line followed by CRLF doubles only its
leading dot and continues at line start. -/
theorem stuffDots_line (l rest : List Char) (h : noNewline l = true) :
    stuffDots true (l ++ '\r' :: '\n' :: rest) =
      dotStuffLine l ++ '\r' :: '\n' :: stuffDots true rest := by
  cases l with
  | nil => simpa [dotStuffLine] using stuffDots_crlf rest true
  | cons c t =>
    simp only [noNewline, List.all_cons, Bool.and_eq_true] at h
    have hc : isLineStartChar c = false := by simpa using h.1
    have ht : noNewline t = true := h.2
    by_cases hdot : c = '.'
    · subst hdot
      show stuffDots true ('.' :: (t ++ '\r' :: '\n' :: rest)) = _
      have h1 : stuffDots true ('.' :: (t ++ '\r' :: '\n' :: rest)) =
          '.' :: '.' :: stuffDots false (t ++ '\r' :: '\n' :: rest) := by
        simp [stuffDots]
      rw [h1, stuffDots_inner t _ ht, stuffDots_crlf]
      rfl
    · show stuffDots true (c :: (t ++ '\r' :: '\n' :: rest)) = _
      have h1 : stuffDots true (c :: (t ++ '\r' :: '\n' :: rest)) =
          c :: stuffDots (isLineStartChar c) (t ++ '\r' :: '\n' :: rest) := by
        simp [stuffDots, hdot]
      rw [h1, hc, stuffDots_inner t _ ht, stuffDots_crlf]
      have h2 : dotStuffLine (c :: t) = c :: t := by
        cases t <;> simp [dotStuffLine, hdot]
      rw [h2]
      simp

/-- A character that is neither CR nor LF passes the normalizer. -/
theorem normalizeNewlines_cons_generic (c : Char) (rest : List Char)
    (h : ¬ c = '\r') (h2 : ¬ c = '\n') :
    normalizeNewlines (c :: rest) = c :: normalizeNewlines rest := by
  rw [normalizeNewlines.eq_def]
  split <;> simp_all

/-- A character other than CR extends the current line of a split. -/
theorem splitCRLF_cons_generic (c : Char) (rest : List Char) (h : ¬ c = '\r') :
    splitCRLF (c :: rest) = consHead c (splitCRLF rest) := by
  rw [splitCRLF.eq_def]
  split <;> simp_all

/-- Splitting a cons-cell of a line list. -/
theorem noNewline_cons (c : Char) (u : List Char) (h : noNewline (c :: u) = true) :
    isLineStartChar c = false ∧ noNewline u = true := by
  simp only [noNewline, List.all_cons, Bool.and_eq_true] at h
  exact ⟨by simpa using h.1, h.2⟩

/-- A non-line-start character is neither CR nor LF. -/
theorem not_crlf_of_lineStart (c : Char) (hc : isLineStartChar c = false) :
    ¬ c = '\r' ∧ ¬ c = '\n' := by
  simp only [isLineStartChar, Bool.or_eq_false_iff, decide_eq_false_iff_not] at hc
  exact ⟨hc.1.1.2, hc.1.1.1⟩

/-- The newline normalizer passes a newline-free line through. -/
theorem normalizeNewlines_line (l rest : List Char) (h : noNewline l = true) :
    normalizeNewlines (l ++ rest) = l ++ normalizeNewlines rest := by
  induction l with
  | nil => rfl
  | cons c u ih =>
    obtain ⟨hc, hu⟩ := noNewline_cons c u h
    obtain ⟨hcr, hcn⟩ := not_crlf_of_lineStart c hc
    show normalizeNewlines (c :: (u ++ rest)) = _
    rw [normalizeNewlines_cons_generic c _ hcr hcn, ih hu]
    rfl

/-- A CRLF-joined body is a fixed point of the newline normalizer. -/
theorem normalizeNewlines_join (lines : List (List Char))
    (h : ∀ l ∈ lines, noNewline l = true) :
    normalizeNewlines (joinCRLF lines) = joinCRLF lines := by
  induction lines with
  | nil => rfl
  | cons l rest ih =>
    cases rest with
    | nil =>
      have hl := h l (List.mem_cons_self _ _)
      have := normalizeNewlines_line l [] hl
      simpa [joinCRLF, normalizeNewlines] using this
    | cons m t =>
      have hl := h l (List.mem_cons_self _ _)
      have hrest : ∀ x ∈ m :: t, noNewline x = true := fun x hx =>
        h x (List.mem_cons_of_mem _ hx)
      show normalizeNewlines (l ++ '\r' :: '\n' :: joinCRLF (m :: t)) = _
      rw [normalizeNewlines_line l _ hl]
      have hcrlf : normalizeNewlines ('\r' :: '\n' :: joinCRLF (m :: t)) =
          '\r' :: '\n' :: normalizeNewlines (joinCRLF (m :: t)) := rfl
      rw [hcrlf, ih hrest]
      rfl

/-- Stuffing a CRLF-joined body stuffs each line independently. -/
theorem stuffDots_join (lines : List (List Char))
    (h : ∀ l ∈ lines, noNewline l = true) :
    stuffDots true (joinCRLF lines) = joinCRLF (lines.map dotStuffLine) := by
  induction lines with
  | nil => rfl
  | cons l rest ih =>
    cases rest with
    | nil =>
      have hl := h l (List.mem_cons_self _ _)
      show stuffDots true (joinCRLF [l]) = joinCRLF [dotStuffLine l]
      simpa [joinCRLF] using stuffDots_terminal l hl
    | cons m t =>
      have hl := h l (List.mem_cons_self _ _)
      have hrest : ∀ x ∈ m :: t, noNewline x = true := fun x hx =>
        h x (List.mem_cons_of_mem _ hx)
      show stuffDots true (l ++ '\r' :: '\n' :: joinCRLF (m :: t)) = _
      rw [stuffDots_line l _ hl, ih hrest]
      rfl

/-- The CRLF splitter cuts exactly at a CRLF after a newline-free line. -/
theorem splitCRLF_line (l rest : List Char) (h : noNewline l = true) :
    splitCRLF (l ++ '\r' :: '\n' :: rest) = l :: splitCRLF rest := by
  induction l with
  | nil => rfl
  | cons c u ih =>
    obtain ⟨hc, hu⟩ := noNewline_cons c u h
    obtain ⟨hcr, _⟩ := not_crlf_of_lineStart c hc
    show splitCRLF (c :: (u ++ '\r' :: '\n' :: rest)) = _
    rw [splitCRLF_cons_generic c _ hcr, ih hu]
    rfl

/-- Splitting a CRLF-joined block recovers its lines. -/
theorem splitCRLF_join (rest : List Char) :
    ∀ (lines : List (List Char)), lines ≠ [] → (∀ l ∈ lines, noNewline l = true) →
      splitCRLF (joinCRLF lines ++ '\r' :: '\n' :: rest) = lines ++ splitCRLF rest := by
  intro lines
  induction lines with
  | nil => intro hne _; exact absurd rfl hne
  | cons l t ih =>
    intro _ h
    have hl := h l (List.mem_cons_self _ _)
    cases t with
    | nil =>
      show splitCRLF (joinCRLF [l] ++ '\r' :: '\n' :: rest) = _
      have hJ : joinCRLF [l] = l := rfl
      rw [hJ, splitCRLF_line l rest hl]
      rfl
    | cons m u =>
      have hrest : ∀ x ∈ m :: u, noNewline x = true := fun x hx =>
        h x (List.mem_cons_of_mem _ hx)
      show splitCRLF ((l ++ '\r' :: '\n' :: joinCRLF (m :: u)) ++ '\r' :: '\n' :: rest) = _
      have hassoc : (l ++ '\r' :: '\n' :: joinCRLF (m :: u)) ++ '\r' :: '\n' :: rest =
          l ++ '\r' :: '\n' :: (joinCRLF (m :: u) ++ '\r' :: '\n' :: rest) := by
        simp [List.append_assoc]
      rw [hassoc, splitCRLF_line l _ hl, ih (by simp) hrest]
      rfl

/-- `takeWhile` keeps an all-true prefix and stops at the first failure. -/
theorem takeWhile_append_stop {α : Type} (p : α → Bool) (b : α) (c : List α)
    (hb : p b = false) :
    ∀ (a : List α), (∀ x ∈ a, p x = true) →
      (a ++ b :: c).takeWhile p = a := by
  intro a
  induction a with
  | nil =>
    intro _
    simp [List.takeWhile_cons, hb]
  | cons x t ih =>
    intro h
    have hx := h x (List.mem_cons_self _ _)
    have ht : ∀ y ∈ t, p y = true := fun y hy => h y (List.mem_cons_of_mem _ hy)
    show ((x :: (t ++ b :: c)).takeWhile p) = x :: t
    simp [List.takeWhile_cons, hx, ih ht]

/-- Un-stuffing undoes per-line stuffing exactly. -/
theorem unstuff_dotStuffLine (l : List Char) : unstuffLine (dotStuffLine l) = l := by
  cases l with
  | nil => rfl
  | cons c t =>
    by_cases hdot : c = '.'
    · subst hdot
      rfl
    · have h1 : dotStuffLine (c :: t) = c :: t := by
        rw [dotStuffLine.eq_def]
        split <;> simp_all
      rw [h1]
      rw [unstuffLine.eq_def]
      split <;> simp_all

/-- No stuffed line is the lone-dot terminator. -/
theorem dotStuffLine_ne_dot (l : List Char) : ¬ dotStuffLine l = ['.'] := by
  cases l with
  | nil => simp [dotStuffLine]
  | cons c t =>
    by_cases hdot : c = '.'
    · subst hdot
      simp [dotStuffLine]
    · have h1 : dotStuffLine (c :: t) = c :: t := by
        rw [dotStuffLine.eq_def]
        split <;> simp_all
      rw [h1]
      simp [hdot]

/-- Per-line stuffing introduces no newline characters. -/
theorem noNewline_dotStuffLine (l : List Char) (h : noNewline l = true) :
    noNewline (dotStuffLine l) = true := by
  cases l with
  | nil => simpa [dotStuffLine] using h
  | cons c t =>
    by_cases hdot : c = '.'
    · subst hdot
      simpa [dotStuffLine, noNewline, isLineStartChar] using h
    · have h1 : dotStuffLine (c :: t) = c :: t := by
        rw [dotStuffLine.eq_def]
        split <;> simp_all
      rw [h1]
      exact h

/-- C9 (amended): for every message body given as its CRLF-joined lines
(no stray line-terminator characters inside a line), the transmitted DATA
payload is the body with exactly one extra '.' prefixed to every line
beginning with '.', followed by the lone-dot terminator line, and a
standards-compliant reader — splitting on CRLF, stopping at the lone '.',
dropping one leading '.' from every line starting with '..' — recovers
the original body exactly. -/
theorem c9_dot_stuffing_roundtrip :
    ∀ (lines : List (List Char)), ¬ lines = [] → (∀ l ∈ lines, noNewline l = true) →
      (splitCRLF (smtpDataPayload (String.mk (joinCRLF lines))).data =
          lines.map dotStuffLine ++ [['.'], []] ∧
        dotStuff (String.mk (joinCRLF lines)) =
          String.mk (joinCRLF (lines.map dotStuffLine)) ∧
        smtpDecode (smtpDataPayload (String.mk (joinCRLF lines))) =
          String.mk (joinCRLF lines)) := by
  intro lines hne h
  have hdot : dotStuff (String.mk (joinCRLF lines)) =
      String.mk (joinCRLF (lines.map dotStuffLine)) := by
    show String.mk (stuffDots true (normalizeNewlines (joinCRLF lines))) = _
    rw [normalizeNewlines_join lines h, stuffDots_join lines h]
  have hdata : (smtpDataPayload (String.mk (joinCRLF lines))).data =
      joinCRLF (lines.map dotStuffLine) ++ '\r' :: '\n' :: ['.', '\r', '\n'] := by
    show (dotStuff (String.mk (joinCRLF lines)) ++ ("\r\n.\r\n" : String)).data = _
    rw [hdot]
    rfl
  have hmapne : ¬ lines.map dotStuffLine = [] := by
    simpa using hne
  have hmapnn : ∀ sl ∈ lines.map dotStuffLine, noNewline sl = true := by
    intro sl hsl
    obtain ⟨l, hl, rfl⟩ := List.mem_map.mp hsl
    exact noNewline_dotStuffLine l (h l hl)
  have htail : splitCRLF ['.', '\r', '\n'] = [['.'], []] := by decide
  have hsplit : splitCRLF (smtpDataPayload (String.mk (joinCRLF lines))).data =
      lines.map dotStuffLine ++ [['.'], []] := by
    rw [hdata, splitCRLF_join ['.', '\r', '\n'] (lines.map dotStuffLine) hmapne hmapnn, htail]
  refine ⟨hsplit, hdot, ?_⟩
  show String.mk (joinCRLF
      (((splitCRLF (smtpDataPayload (String.mk (joinCRLF lines))).data).takeWhile
        fun l => l ≠ ['.']).map unstuffLine)) = _
  rw [hsplit]
  have htake : ((lines.map dotStuffLine ++ [['.'], []]).takeWhile
      fun l => l ≠ ['.']) = lines.map dotStuffLine := by
    apply takeWhile_append_stop
    · simp
    · intro x hx
      obtain ⟨l, _, rfl⟩ := List.mem_map.mp hx
      simp [dotStuffLine_ne_dot l]
  rw [htake]
  have hmap : (lines.map dotStuffLine).map unstuffLine = lines := by
    rw [List.map_map]
    have hcong : ∀ a ∈ lines, (unstuffLine ∘ dotStuffLine) a = id a := by
      intro a _
      simp [unstuff_dotStuffLine a]
    rw [List.map_congr_left hcong, List.map_id]
  rw [hmap]

/-- Counterexample for C9 as stated: a body whose line break is a bare LF
is transmitted with the break normalized to CRLF, so the
standards-compliant reader recovers `"a\r\nb"` — not the original
`"a\nb"` byte for byte. -/
theorem c9_dot_stuffing_roundtrip_counterexample :
    smtpDecode (smtpDataPayload ("a\nb")) = "a\r\nb" ∧
      ¬ smtpDecode (smtpDataPayload ("a\nb")) = "a\nb" := by
  decide

/-- Witness for C9: the one-line body `".leading dot"` is transmitted as
`"..leading dot"` and decodes back to itself. -/
theorem c9_dot_stuffing_roundtrip_witness :
    dotStuff (String.mk (joinCRLF [(".leading dot").data])) =
        String.mk (joinCRLF ([(".leading dot").data].map dotStuffLine)) ∧
      smtpDecode (smtpDataPayload (String.mk (joinCRLF [(".leading dot").data]))) =
        String.mk (joinCRLF [(".leading dot").data]) := by
  have h := c9_dot_stuffing_roundtrip [(".leading dot").data] (by decide) (by decide)
  exact ⟨h.2.1, h.2.2⟩
